import Mathlib

/-!
Verification of the copc-rs COPC reader/writer against its natural-language
specification.

The development is a shallow embedding of the relevant parts of the source:

* `src/bounds.rs` — the crate's own `Bounds` box and `intersects`;
* `src/copc.rs` — `VoxelKey`, `Entry`, their little-endian serialization;
* `src/reader.rs` — the VLR classification of `CopcReader::new`, the level
  range and octree traversal of `load_octree_for_query`, and the seek
  sequence of `PointIter::next`;
* `src/writer.rs` — the PDRF upgrade of `CopcWriter::new`, the validation
  loop of `write_greedy` / `write_stochastic`, the GPS-time running min/max,
  and the close/drop lifecycle guards.

Finite `f64` values are modelled as exact rationals: comparison and the exact
arithmetic appearing in the claims agree between the two. `u8`/`u16`/`u32`/
`u64` values are modelled as `ℕ` with explicit wrapping where the source can
wrap, `i32` as `ℤ` with explicit two-complement encoding where serialized.
-/

/-- The crate's own 3D bounding box, embedding `Bounds` from `src/bounds.rs`
(lines 1-10). Coordinates are exact rationals standing for finite `f64`
values. -/
structure BoundsR where
  min_x : ℚ
  min_y : ℚ
  min_z : ℚ
  max_x : ℚ
  max_y : ℚ
  max_z : ℚ
deriving DecidableEq

/-- Embedding of `Bounds::intersects` (src/bounds.rs lines 96-116): the chain
of early-return comparisons, in source order. -/
def BoundsR.intersects (s r : BoundsR) : Bool :=
  if s.max_x < r.min_x then false
  else if s.max_y < r.min_y then false
  else if s.max_z < r.min_z then false
  else if s.min_x > r.max_x then false
  else if s.min_y > r.max_y then false
  else if s.min_z > r.max_z then false
  else true

/-- 3D vector of finite `f64` values (`las::Vector<f64>`), as used for bounds
and the COPC info center. -/
structure Vec3Q where
  x : ℚ
  y : ℚ
  z : ℚ
deriving DecidableEq

/-- `las::Bounds`: the box type used by reader and writer (distinct from the
crate's own `Bounds` in `src/bounds.rs`). -/
structure LasBounds where
  min : Vec3Q
  max : Vec3Q
deriving DecidableEq

/-- EPT hierarchy key, embedding `VoxelKey` from `src/copc.rs` (lines 73-85);
all four fields are i32, modelled as `ℤ`. -/
structure VoxelKey where
  level : ℤ
  x : ℤ
  y : ℤ
  z : ℤ
deriving DecidableEq

/-- Embedding of `VoxelKey::child` (src/copc.rs lines 119-126). On the
nonnegative coordinates produced by octree traversal, the i32 operations
`(x << 1) | (dir & 1)` equal `2 * x + dir % 2`, and likewise for the shifted
direction bits. -/
def VoxelKey.child (k : VoxelKey) (dir : ℤ) : VoxelKey :=
  { level := k.level + 1
    x := 2 * k.x + dir % 2
    y := 2 * k.y + dir / 2 % 2
    z := 2 * k.z + dir / 4 % 2 }

/-- Embedding of `VoxelKey::children` (src/copc.rs lines 127-129): the eight
children for directions 0..7, in order. -/
def VoxelKey.children (k : VoxelKey) : List VoxelKey :=
  (List.range 8).map fun i => k.child i

/-- Embedding of `VoxelKey::bounds` (src/copc.rs lines 130-147): the cube of
this key relative to the root cube. `2_u32.pow(level as u32)` is modelled as
`2 ^ level.toNat`; the traversal only reaches keys with `level ≥ 0`. -/
def VoxelKey.bounds (k : VoxelKey) (rootBounds : LasBounds) : LasBounds :=
  let sideSize : ℚ := (rootBounds.max.x - rootBounds.min.x) / (2 ^ k.level.toNat : ℚ)
  { min := { x := rootBounds.min.x + k.x * sideSize
             y := rootBounds.min.y + k.y * sideSize
             z := rootBounds.min.z + k.z * sideSize }
    max := { x := rootBounds.min.x + (k.x + 1) * sideSize
             y := rootBounds.min.y + (k.y + 1) * sideSize
             z := rootBounds.min.z + (k.z + 1) * sideSize } }

/-- Hierarchy entry, embedding `Entry` from `src/copc.rs` (lines 150-172):
`offset` is u64 (modelled as `ℕ`), `byte_size` and `point_count` are i32
(modelled as `ℤ`). -/
structure Entry where
  key : VoxelKey
  offset : ℕ
  byte_size : ℤ
  point_count : ℤ
deriving DecidableEq

/-- Little-endian bytes of a u32, least significant first (the encoding used
by `write_i32::<LittleEndian>` after two-complement conversion). -/
def u32leBytes (n : ℕ) : List ℕ :=
  [n % 256, n / 256 % 256, n / 65536 % 256, n / 16777216 % 256]

/-- Little-endian encoding of an i32: two-complement representative in
`[0, 2^32)`, then four bytes. -/
def i32leBytes (i : ℤ) : List ℕ :=
  u32leBytes (i % 4294967296).toNat

/-- Little-endian bytes of a u64, least significant first. -/
def u64leBytes (n : ℕ) : List ℕ :=
  [n % 256, n / 256 % 256, n / 65536 % 256, n / 16777216 % 256,
   n / 4294967296 % 256, n / 1099511627776 % 256,
   n / 281474976710656 % 256, n / 72057594037927936 % 256]

/-- Embedding of `VoxelKey::write_to` (src/copc.rs lines 110-117): level, x,
y, z as i32 little-endian. -/
def VoxelKey.writeTo (k : VoxelKey) : List ℕ :=
  i32leBytes k.level ++ (i32leBytes k.x ++ (i32leBytes k.y ++ i32leBytes k.z))

/-- Embedding of `Entry::write_to` (src/copc.rs lines 186-193): the key, then
offset as u64, byte_size and point_count as i32, all little-endian. -/
def Entry.writeTo (e : Entry) : List ℕ :=
  e.key.writeTo ++ (u64leBytes e.offset ++ (i32leBytes e.byte_size ++ i32leBytes e.point_count))

/-- `read_u32::<LittleEndian>` on a byte stream: consumes four bytes; `none`
models the short-read error. -/
def readU32 : List ℕ → Option (ℕ × List ℕ)
  | b0 :: b1 :: b2 :: b3 :: rest =>
    some (b0 + 256 * b1 + 65536 * b2 + 16777216 * b3, rest)
  | _ => none

/-- Reinterpret a u32 value as an i32 (two-complement). -/
def asI32 (n : ℕ) : ℤ :=
  if n < 2147483648 then (n : ℤ) else (n : ℤ) - 4294967296

/-- `read_i32::<LittleEndian>` on a byte stream. -/
def readI32 (l : List ℕ) : Option (ℤ × List ℕ) :=
  (readU32 l).map fun p => (asI32 p.1, p.2)

/-- `read_u64::<LittleEndian>` on a byte stream: consumes eight bytes. -/
def readU64 : List ℕ → Option (ℕ × List ℕ)
  | b0 :: b1 :: b2 :: b3 :: b4 :: b5 :: b6 :: b7 :: rest =>
    some (b0 + 256 * b1 + 65536 * b2 + 16777216 * b3 + 4294967296 * b4 +
      1099511627776 * b5 + 281474976710656 * b6 + 72057594037927936 * b7, rest)
  | _ => none

/-- Embedding of `VoxelKey::read_from` (src/copc.rs lines 100-107): four i32
reads in sequence. -/
def VoxelKey.readFrom (l : List ℕ) : Option (VoxelKey × List ℕ) :=
  match readI32 l with
  | none => none
  | some (lv, l1) =>
    match readI32 l1 with
    | none => none
    | some (x, l2) =>
      match readI32 l2 with
      | none => none
      | some (y, l3) =>
        match readI32 l3 with
        | none => none
        | some (z, l4) => some (⟨lv, x, y, z⟩, l4)

/-- Embedding of `Entry::read_from` (src/copc.rs lines 176-183): a key, a u64
offset, then byte_size and point_count as i32. -/
def Entry.readFrom (l : List ℕ) : Option (Entry × List ℕ) :=
  match VoxelKey.readFrom l with
  | none => none
  | some (k, l1) =>
    match readU64 l1 with
    | none => none
    | some (off, l2) =>
      match readI32 l2 with
      | none => none
      | some (bs, l3) =>
        match readI32 l3 with
        | none => none
        | some (pc, l4) => some (⟨k, off, bs, pc⟩, l4)

/-- Range constraint of an i32 value. -/
def isI32 (i : ℤ) : Prop :=
  -2147483648 ≤ i ∧ i < 2147483648

instance (i : ℤ) : Decidable (isI32 i) := by
  unfold isI32; infer_instance

/-- A `VoxelKey` whose fields are in i32 range. -/
def VoxelKey.valid (k : VoxelKey) : Prop :=
  isI32 k.level ∧ isI32 k.x ∧ isI32 k.y ∧ isI32 k.z

instance (k : VoxelKey) : Decidable k.valid := by
  unfold VoxelKey.valid; infer_instance

/-- An `Entry` whose fields are in the ranges of their machine types. -/
def Entry.valid (e : Entry) : Prop :=
  e.key.valid ∧ e.offset < 18446744073709551616 ∧ isI32 e.byte_size ∧ isI32 e.point_count

instance (e : Entry) : Decidable e.valid := by
  unfold Entry.valid; infer_instance

/-- The fields of the COPC info VLR used by `load_octree_for_query`
(src/copc.rs lines 10-28). -/
structure CopcInfoQ where
  center : Vec3Q
  halfsize : ℚ
  spacing : ℚ
deriving DecidableEq

/-- Embedding of `LodSelection` (src/reader.rs lines 324-334). -/
inductive LodSelection where
  | all
  | resolution (r : ℚ)
  | level (l : ℤ)
  | levelMinMax (lmin lmax : ℤ)

/-- Embedding of `BoundsSelection` (src/reader.rs lines 337-342). -/
inductive BoundsSelection where
  | all
  | within (b : LasBounds)

/-- `i32::MAX`. -/
def i32Max : ℤ := 2147483647

/-- Exact model of `f64::log2` followed by `f64::ceil` on a positive finite
value: `Int.clog 2 q` is the least `k` with `q ≤ 2 ^ k`, that is
`⌈log2 q⌉`. -/
def ceilLog2 (q : ℚ) : ℤ := Int.clog 2 q

/-- Embedding of the level-range computation of
`CopcReader::load_octree_for_query` (src/reader.rs lines 167-175). Note the
resolution branch: the source computes
`1.max((resolution * self.copc_info.spacing).log2().ceil() as i32)`. -/
def lodLevelRange (info : CopcInfoQ) : LodSelection → ℤ × ℤ
  | .all => (0, i32Max)
  | .resolution r => (0, max 1 (ceilLog2 (r * info.spacing)))
  | .level l => (l, l + 1)
  | .levelMinMax a b => (a, b)

/-- The level bound claim C1 states for `Resolution(r)`, following the spec
words: `lmax = max(1, ceil(log2(s0 / r)) + 1)` for root spacing `s0`. Stated
separately so it can be compared with the embedded code. -/
def specResolutionLmax (s0 r : ℚ) : ℤ :=
  max 1 (ceilLog2 (s0 / r) + 1)

/-- The root cube built by `load_octree_for_query` (src/reader.rs lines
177-188): `center ± halfsize` on each axis. -/
def copcRootBounds (info : CopcInfoQ) : LasBounds :=
  { min := { x := info.center.x - info.halfsize
             y := info.center.y - info.halfsize
             z := info.center.z - info.halfsize }
    max := { x := info.center.x + info.halfsize
             y := info.center.y + info.halfsize
             z := info.center.z + info.halfsize } }

/-- Embedding of `bounds_intersect` (src/reader.rs lines 301-309). -/
def lasBoundsIntersect (a b : LasBounds) : Bool :=
  decide (¬ (a.max.x < b.min.x ∨ a.max.y < b.min.y ∨ a.max.z < b.min.z ∨
    a.min.x > b.max.x ∨ a.min.y > b.max.y ∨ a.min.z > b.max.z))

/-- Lookup in the reader's `hierarchy_entries` map (a `HashMap<VoxelKey,
Entry>`), modelled as an association list with pairwise distinct keys. -/
def findEntry (hier : List (VoxelKey × Entry)) (k : VoxelKey) : Option Entry :=
  (hier.find? fun p => decide (p.1 = k)).map fun p => p.2

/-- The while-loop of `load_octree_for_query` (src/reader.rs lines 193-231).
`stack` is the explicit node stack, top first; a stacked node carries only its
key, exactly like the `OctreeNode::new()` values the source pushes. `acc` is
`satisfying_nodes` in emission order (the source appends and never sorts).
The node bounds are computed and tested only under a `Within` query, as in
the source, where the check is only reached in that branch; the `children`
list the source also stores on nodes is never read by the point iterator and
is dropped. `fuel` only bounds the number of loop iterations: each expansion
consumes a hierarchy key of a tree, so any fuel past the expansion count
leaves the result unchanged. -/
def loadOctreeLoop (hier : List (VoxelKey × Entry)) (rootB : LasBounds)
    (queryBounds : BoundsSelection) (levelMin levelMax : ℤ) :
    ℕ → List VoxelKey → List Entry → List Entry
  | 0, _, acc => acc
  | _ + 1, [], acc => acc
  | fuel + 1, key :: stack, acc =>
    if levelMax ≤ key.level then
      loadOctreeLoop hier rootB queryBounds levelMin levelMax fuel stack acc
    else
      match findEntry hier key with
      | none => loadOctreeLoop hier rootB queryBounds levelMin levelMax fuel stack acc
      | some entry =>
        if (match queryBounds with
            | .all => false
            | .within qb => !(lasBoundsIntersect (key.bounds rootB) qb)) then
          loadOctreeLoop hier rootB queryBounds levelMin levelMax fuel stack acc
        else
          loadOctreeLoop hier rootB queryBounds levelMin levelMax fuel
            (key.children.reverse ++ stack)
            (if 0 < entry.point_count ∧ levelMin ≤ key.level ∧ key.level < levelMax
             then acc ++ [entry] else acc)

/-- Embedding of `CopcReader::load_octree_for_query` (src/reader.rs lines
162-233): compute the level range and root cube, then run the traversal from
the root key `(0, 0, 0, 0)` (the source's `OctreeNode::new()` with its level
set to 0). The caller passes the loop fuel. -/
def loadOctreeForQuery (info : CopcInfoQ) (hier : List (VoxelKey × Entry))
    (levels : LodSelection) (queryBounds : BoundsSelection) (fuel : ℕ) : List Entry :=
  let r := lodLevelRange info levels
  loadOctreeLoop hier (copcRootBounds info) queryBounds r.1 r.2 fuel
    [⟨0, 0, 0, 0⟩] []

/-- The absolute source offsets seeked by `PointIter::next` (src/reader.rs
lines 359-373) over a full iteration: nodes are popped from the END of the
node list returned by `load_octree_for_query`, and every popped node causes
`source_seek(node.entry.offset)`. -/
def seekOffsets (nodes : List Entry) : List ℕ :=
  (nodes.map fun e => e.offset).reverse

/-- Concrete COPC info for the claim C2 failing input: unit root cube scaled
to halfsize 8 at the origin, spacing 1. -/
def infoC2 : CopcInfoQ := ⟨⟨0, 0, 0⟩, 8, 1⟩

/-- Concrete hierarchy for the claim C2 failing input: the root chunk written
at offset 50 and one child chunk at offset 100 (the natural layout of a
writer that flushes the root chunk first). -/
def hierC2 : List (VoxelKey × Entry) :=
  [(⟨0, 0, 0, 0⟩, ⟨⟨0, 0, 0, 0⟩, 50, 10, 1⟩),
   (⟨1, 0, 0, 0⟩, ⟨⟨1, 0, 0, 0⟩, 100, 10, 1⟩)]

/-- The fields of `las::point::Format` this crate reads (external `las`
collaborator, embedded as used by `Point::matches` and the writer). -/
structure LasFormat where
  hasGpsTime : Bool
  hasColor : Bool
  hasWaveform : Bool
  hasNir : Bool
  extraBytes : ℕ
deriving DecidableEq

/-- The fields of `las::Point` the writer reads: coordinates, the optional
GPS time, and the presence of the optional attributes checked by
`Point::matches`. -/
structure LasPoint where
  x : ℚ
  y : ℚ
  z : ℚ
  gpsTime : Option ℚ
  hasColor : Bool
  hasWaveform : Bool
  hasNir : Bool
  extraLen : ℕ
deriving DecidableEq

/-- Embedding of `las::Point::matches` (external `las` collaborator, called
at src/writer.rs lines 458 and 504): every optional attribute is present
exactly when the format has it, and the extra-byte counts agree. -/
def pointMatches (p : LasPoint) (fmt : LasFormat) : Bool :=
  (p.gpsTime.isSome == fmt.hasGpsTime) && (p.hasColor == fmt.hasColor) &&
    (p.hasWaveform == fmt.hasWaveform) && (p.hasNir == fmt.hasNir) &&
    (p.extraLen == fmt.extraBytes)

/-- Embedding of `bounds_contains_point` (src/writer.rs lines 839-847). -/
def boundsContainsPoint (b : LasBounds) (p : LasPoint) : Bool :=
  decide (¬ (b.max.x < p.x ∨ b.max.y < p.y ∨ b.max.z < p.z ∨
    b.min.x > p.x ∨ b.min.y > p.y ∨ b.min.z > p.z))

/-- `las::point::Format::new(n).has_gps_time` for PDRF `n` (external `las`
collaborator): formats 1 and 3 through 10 carry a GPS time, 0 and 2 do not. -/
def pdrfHasGpsTime (n : ℕ) : Bool :=
  n == 1 || (decide (3 ≤ n) && decide (n ≤ 10))

/-- Embedding of the PDRF handling of `CopcWriter::new` (src/writer.rs lines
224-263): the two compression bits are masked off, formats 1 and 3 are
upgraded (adding 5 and 4 to the stored byte and 2 to the record length),
formats 6 through 8 are kept, everything else is the `InvalidPointFormat`
error (`none`); the compression bits are forced on in the stored byte. The
result is the stored PDRF byte and the amount added to
`point_data_record_length`. -/
def upgradePdrf (fmtByte : ℕ) : Option (ℕ × ℕ) :=
  match fmtByte &&& 63 with
  | 1 => some (((fmtByte + 5) % 256) ||| 192, 2)
  | 3 => some (((fmtByte + 4) % 256) ||| 192, 2)
  | 0 | 2 => none
  | 6 | 7 | 8 => some ((fmtByte % 256) ||| 192, 0)
  | _ => none

/-- `f64::MAX` as an exact rational: `(2^53 - 1) * 2^971`. -/
def f64Max : ℚ := (2 ^ 53 - 1) * 2 ^ 971

/-- `f64::MIN` as an exact rational. -/
def f64Min : ℚ := -f64Max

/-- The running GPS-time fields of the writer's `CopcInfo`. -/
structure GpsMinMax where
  gpstimeMinimum : ℚ
  gpstimeMaximum : ℚ
deriving DecidableEq

/-- Embedding of the GPS-time update in `add_point_greedy` (src/writer.rs
lines 618-622) and `add_point_stochastic` (lines 767-771); note the
`else if`: the maximum is only examined when the minimum update did not
fire. -/
def gpsUpdate (st : GpsMinMax) (t : ℚ) : GpsMinMax :=
  if t < st.gpstimeMinimum then { st with gpstimeMinimum := t }
  else if t > st.gpstimeMaximum then { st with gpstimeMaximum := t }
  else st

/-- Initial GPS-time fields set by `CopcWriter::new` (src/writer.rs lines
352-353): minimum starts at `f64::MAX` and maximum at `f64::MIN`. -/
def gpsInit : GpsMinMax := ⟨f64Max, f64Min⟩

/-- Embedding of `PointAddError` (src/error.rs lines 79-96); the format
payload of the attribute variant plays no role in the claims and is
dropped. -/
inductive PointAddError where
  | pointAttributesDoNotMatch
  | pointNotInBounds
deriving DecidableEq

/-- The writer state the write-loop claims are about: the points handed to
point placement in order, the running GPS min/max, and the `invalid_points`
error accumulator of `write_greedy` / `write_stochastic`. -/
structure WriteState where
  placed : List LasPoint
  gps : GpsMinMax
  invalidPoints : Option PointAddError
deriving DecidableEq

/-- One iteration of the `write_greedy` loop (src/writer.rs lines 457-474),
including the parts of `add_point_greedy` the claims concern: the GPS-time
update and the `point.gps_time.unwrap()` — a `none` result models that panic.
The octree placement and chunk I/O of `add_point_greedy` succeed for every
in-bounds point and are abstracted to appending the point to `placed`. The
validation prologue of `write_stochastic` (lines 503-526) is identical. -/
def writeStep (fmt : LasFormat) (rootB : LasBounds) (st : WriteState) (p : LasPoint) :
    Option WriteState :=
  if !(pointMatches p fmt) then
    some { st with invalidPoints := some .pointAttributesDoNotMatch }
  else if !(boundsContainsPoint rootB p) then
    some { st with invalidPoints :=
      match st.invalidPoints with
      | none => some .pointNotInBounds
      | some e => some e }
  else
    match p.gpsTime with
    | none => none
    | some t => some { st with placed := st.placed ++ [p], gps := gpsUpdate st.gps t }

/-- The `for p in data` loop of `write_greedy` (src/writer.rs lines 457-474):
fold `writeStep` over the input stream, propagating the unwrap panic. -/
def writeLoop (fmt : LasFormat) (rootB : LasBounds) :
    WriteState → List LasPoint → Option WriteState
  | st, [] => some st
  | st, p :: ps =>
    match writeStep fmt rootB st p with
    | none => none
    | some st1 => writeLoop fmt rootB st1 ps

/-- Embedding of `CopcWriter::write_greedy` (src/writer.rs lines 454-476),
started from the freshly constructed writer state. -/
def writeGreedy (fmt : LasFormat) (rootB : LasBounds) (ps : List LasPoint) :
    Option WriteState :=
  writeLoop fmt rootB ⟨[], gpsInit, none⟩ ps

/-- The aggregated per-point error as claim C6 states it (spec side, for
comparison with the embedded loop): an attribute mismatch anywhere in the
stream dominates, otherwise an in-format but out-of-bounds point yields the
bounds error, otherwise no error. -/
def specAggregatedError (fmt : LasFormat) (rootB : LasBounds) (ps : List LasPoint) :
    Option PointAddError :=
  if ps.any fun p => !(pointMatches p fmt) then some .pointAttributesDoNotMatch
  else if ps.any fun p => pointMatches p fmt && !(boundsContainsPoint rootB p) then
    some .pointNotInBounds
  else none

/-- The error accumulator of the write loop as a function of its starting
value: helper for relating the loop to `specAggregatedError`. -/
def errCombine (fmt : LasFormat) (rootB : LasBounds) (e0 : Option PointAddError)
    (ps : List LasPoint) : Option PointAddError :=
  if ps.any fun p => !(pointMatches p fmt) then some .pointAttributesDoNotMatch
  else
    match e0 with
    | some e => some e
    | none =>
      if ps.any fun p => pointMatches p fmt && !(boundsContainsPoint rootB p) then
        some .pointNotInBounds
      else none

/-- The lifecycle fields of `CopcWriter` the close/drop claims are about:
`is_closed` and the header's running point count. -/
structure WriterLifecycle where
  isClosed : Bool
  numPoints : ℕ
deriving DecidableEq

/-- The lifecycle errors of `CopcWriter::close`. -/
inductive CloseError where
  | closedWriter
  | emptyCopcFile
deriving DecidableEq

/-- Guard structure of `CopcWriter::close` (src/writer.rs lines 531-537): an
already-closed writer errs with `ClosedWriter`, a writer with fewer than one
point errs with `EmptyCopcFile`; otherwise the chunk/EVLR/header output runs
(modelled as succeeding) and the writer ends closed (line 608). -/
def closeWriter (s : WriterLifecycle) : Except CloseError WriterLifecycle :=
  if s.isClosed then .error .closedWriter
  else if s.numPoints < 1 then .error .emptyCopcFile
  else .ok { s with isClosed := true }

/-- Embedding of `Drop for CopcWriter` (src/writer.rs lines 828-837): a
writer that is not closed calls `close` and unwraps the result with
`expect`; `none` models that panic. -/
def dropWriter (s : WriterLifecycle) : Option WriterLifecycle :=
  if s.isClosed then some s
  else
    match closeWriter s with
    | .ok s1 => some s1
    | .error _ => none

/-- ASCII lowercasing of a user id, modelling `str::to_lowercase` as applied
to VLR user ids. -/
def strToLower (s : String) : String :=
  ⟨s.data.map Char.toLower⟩

/-- The identification of a VLR: its user id and record id, the two fields
the reader's classification reads. Payload parsing is abstracted as
succeeding. -/
structure VlrRec where
  userId : String
  recordId : ℕ
deriving DecidableEq

/-- The three structural-prerequisite errors of `CopcReader::new`
(src/error.rs lines 37-47). -/
inductive ReaderVlrError where
  | copcInfoVlrNotFound
  | eptHierarchyVlrNotFound
  | lasZipVlrNotFound
deriving DecidableEq

/-- The `("copc", 1)` match arm of the VLR classification (src/reader.rs
line 93). -/
def isCopcInfoVlr (v : VlrRec) : Bool :=
  strToLower v.userId == "copc" && v.recordId == 1

/-- The `("copc", 1000)` match arm (src/reader.rs line 96). -/
def isEptHierarchyVlr (v : VlrRec) : Bool :=
  strToLower v.userId == "copc" && v.recordId == 1000

/-- The `("laszip encoded", 22204)` match arm (src/reader.rs line 99). -/
def isLasZipVlr (v : VlrRec) : Bool :=
  strToLower v.userId == "laszip encoded" && v.recordId == 22204

/-- Which of the three relevant VLRs have been seen by the classification
loop (the source stores the parsed payloads; only presence matters to the
claims). -/
structure VlrScan where
  copcInfo : Bool
  eptHierarchy : Bool
  laszipVlr : Bool
deriving DecidableEq

/-- One step of the `for vlr in header.all_vlrs()` classification loop of
`CopcReader::new` (src/reader.rs lines 91-104). -/
def classifyVlr (st : VlrScan) (v : VlrRec) : VlrScan :=
  if isCopcInfoVlr v then { st with copcInfo := true }
  else if isEptHierarchyVlr v then { st with eptHierarchy := true }
  else if isLasZipVlr v then { st with laszipVlr := true }
  else st

/-- The structural checks of `CopcReader::new` after the classification loop:
a missing COPC info VLR errs first (src/reader.rs line 106), then a missing
EPT hierarchy (line 110), then a missing laszip VLR (line 143). The input
list is `header.all_vlrs()` — all VLRs and EVLRs in file order. -/
def readerNewVlrCheck (vlrs : List VlrRec) : Except ReaderVlrError Unit :=
  let st := vlrs.foldl classifyVlr ⟨false, false, false⟩
  if !st.copcInfo then .error .copcInfoVlrNotFound
  else if !st.eptHierarchy then .error .eptHierarchyVlrNotFound
  else if !st.laszipVlr then .error .lasZipVlrNotFound
  else .ok ()

/-- A point format with GPS time and no other optional attribute: the format
of a writer whose header was upgraded to PDRF 6. -/
def fmt6Ex : LasFormat := ⟨true, false, false, false, 0⟩

/-- Concrete writer root bounds for the writer examples. -/
def rootBEx : LasBounds := ⟨⟨-10, -10, -10⟩, ⟨10, 10, 10⟩⟩

/-- A point matching `fmt6Ex`, inside `rootBEx`, with GPS time 5. -/
def p5Ex : LasPoint := ⟨0, 0, 0, some 5, false, false, false, 0⟩

/-- A point that carries no GPS time but would otherwise match `fmt6Ex`. -/
def pNoGpsEx : LasPoint := ⟨0, 0, 0, none, false, false, false, 0⟩

/-- A point matching `fmt6Ex` but lying outside `rootBEx`. -/
def pFarEx : LasPoint := ⟨100, 0, 0, some 6, false, false, false, 0⟩

/-- Claim C8, counterexample: a box whose x axis is inverted (`min_x = 1 >
0 = max_x`) has all six coordinates finite yet does not intersect itself,
because the first early return `self.max_x < r.min_x` fires. -/
theorem intersects_not_reflexive_on_inverted_box :
    BoundsR.intersects ⟨1, 0, 0, 0, 0, 0⟩ ⟨1, 0, 0, 0, 0, 0⟩ = false := by
  decide

/-- Claim C8 (amended): `Bounds::intersects` is commutative for all boxes, and
it is reflexive for every box whose minimum is at most its maximum on each
axis; reflexivity fails for boxes with an inverted axis. -/
theorem intersects_comm_and_refl :
    (∀ a b : BoundsR, a.intersects b = b.intersects a) ∧
    (∀ a : BoundsR, a.min_x ≤ a.max_x → a.min_y ≤ a.max_y → a.min_z ≤ a.max_z →
      a.intersects a = true) := by
  constructor
  · intro a b
    unfold BoundsR.intersects
    split_ifs <;> rfl
  · intro a h1 h2 h3
    unfold BoundsR.intersects
    split_ifs <;> first | rfl | (exfalso; linarith)

/-- Witness for claim C8: the amended theorem applied at concrete boxes. -/
theorem intersects_comm_and_refl_witness :
    BoundsR.intersects ⟨0, 0, 0, 1, 1, 1⟩ ⟨2, 2, 2, 3, 3, 3⟩ =
      BoundsR.intersects ⟨2, 2, 2, 3, 3, 3⟩ ⟨0, 0, 0, 1, 1, 1⟩ ∧
    BoundsR.intersects ⟨0, 0, 0, 1, 1, 1⟩ ⟨0, 0, 0, 1, 1, 1⟩ = true :=
  ⟨intersects_comm_and_refl.1 ⟨0, 0, 0, 1, 1, 1⟩ ⟨2, 2, 2, 3, 3, 3⟩,
    intersects_comm_and_refl.2 ⟨0, 0, 0, 1, 1, 1⟩ (by decide) (by decide) (by decide)⟩

theorem readU32_u32leBytes (n : ℕ) (h : n < 4294967296) (rest : List ℕ) :
    readU32 (u32leBytes n ++ rest) = some (n, rest) := by
  have hd : n % 256 + 256 * (n / 256 % 256) + 65536 * (n / 65536 % 256) +
      16777216 * (n / 16777216 % 256) = n := by omega
  simp [u32leBytes, readU32, hd]

theorem readI32_i32leBytes (i : ℤ) (h1 : -2147483648 ≤ i) (h2 : i < 2147483648)
    (rest : List ℕ) :
    readI32 (i32leBytes i ++ rest) = some (i, rest) := by
  have hm : (i % 4294967296).toNat < 4294967296 := by omega
  have ha : asI32 (i % 4294967296).toNat = i := by
    unfold asI32; split_ifs <;> omega
  unfold i32leBytes readI32
  rw [readU32_u32leBytes _ hm, Option.map_some', ha]

theorem readU64_u64leBytes (n : ℕ) (h : n < 18446744073709551616) (rest : List ℕ) :
    readU64 (u64leBytes n ++ rest) = some (n, rest) := by
  have hd : n % 256 + 256 * (n / 256 % 256) + 65536 * (n / 65536 % 256) +
      16777216 * (n / 16777216 % 256) + 4294967296 * (n / 4294967296 % 256) +
      1099511627776 * (n / 1099511627776 % 256) +
      281474976710656 * (n / 281474976710656 % 256) +
      72057594037927936 * (n / 72057594037927936 % 256) = n := by omega
  simp [u64leBytes, readU64, hd]

theorem voxelKey_readFrom_writeTo (k : VoxelKey) (hk : k.valid) (rest : List ℕ) :
    VoxelKey.readFrom (k.writeTo ++ rest) = some (k, rest) := by
  obtain ⟨⟨h1, h2⟩, ⟨h3, h4⟩, ⟨h5, h6⟩, ⟨h7, h8⟩⟩ := hk
  unfold VoxelKey.writeTo VoxelKey.readFrom
  simp only [List.append_assoc, readI32_i32leBytes k.level h1 h2,
    readI32_i32leBytes k.x h3 h4, readI32_i32leBytes k.y h5 h6,
    readI32_i32leBytes k.z h7 h8]

/-- Claim C7: serializing any in-range hierarchy entry with `Entry::write_to`
emits exactly 32 little-endian bytes, and `Entry::read_from` parses them back
to an entry equal to the original field by field (with an empty remainder). -/
theorem entry_write_read_roundtrip (e : Entry) (he : e.valid) :
    Entry.readFrom e.writeTo = some (e, []) ∧ e.writeTo.length = 32 := by
  obtain ⟨hk, hoff, ⟨h1, h2⟩, ⟨h3, h4⟩⟩ := he
  constructor
  · unfold Entry.writeTo Entry.readFrom
    rw [show i32leBytes e.byte_size ++ i32leBytes e.point_count =
        i32leBytes e.byte_size ++ (i32leBytes e.point_count ++ []) by
      rw [List.append_nil]]
    simp only [voxelKey_readFrom_writeTo e.key hk, readU64_u64leBytes e.offset hoff,
      readI32_i32leBytes e.byte_size h1 h2, readI32_i32leBytes e.point_count h3 h4]
  · simp [Entry.writeTo, VoxelKey.writeTo, i32leBytes, u32leBytes, u64leBytes]

/-- Witness for claim C7: the round trip at a concrete entry with a negative
byte size. -/
theorem entry_write_read_roundtrip_witness :
    Entry.readFrom (Entry.writeTo ⟨⟨1, 2, 3, 4⟩, 5, -6, 7⟩) =
      some (⟨⟨1, 2, 3, 4⟩, 5, -6, 7⟩, []) ∧
    (Entry.writeTo ⟨⟨1, 2, 3, 4⟩, 5, -6, 7⟩).length = 32 :=
  entry_write_read_roundtrip ⟨⟨1, 2, 3, 4⟩, 5, -6, 7⟩ (by decide)

theorem ceilLog2_eq (q : ℚ) (k : ℤ) (h0 : 0 < q) (h1 : (2 : ℚ) ^ (k - 1) < q)
    (h2 : q ≤ (2 : ℚ) ^ k) : ceilLog2 q = k := by
  unfold ceilLog2
  have hb : 1 < 2 := Nat.one_lt_two
  have hcast : ((2 : ℕ) : ℚ) = (2 : ℚ) := by norm_num
  refine le_antisymm ?_ ?_
  · exact (Int.le_zpow_iff_clog_le hb h0).mp (by rw [hcast]; exact h2)
  · have hlt := (Int.zpow_lt_iff_lt_clog hb h0).mp (by rw [hcast]; exact h1)
    omega

/-- Claim C1: at the failing input — root spacing `s0 = 4.0`, query
`Resolution(1.0)`, all the `f64` steps exact — the code's level range
(src/reader.rs line 171, `max(1, ceil(log2(r * s0)))`) yields `lmax = 2`,
while the formula the claim states, `max(1, ceil(log2(s0 / r)) + 1)`, yields
3: one level of the octree the claim promises is not selected. -/
theorem lodLevelRange_resolution_diverges :
    lodLevelRange ⟨⟨0, 0, 0⟩, 8, 4⟩ (LodSelection.resolution 1) = (0, 2) ∧
    specResolutionLmax 4 1 = 3 := by
  have e4 : ceilLog2 (4 : ℚ) = 2 :=
    ceilLog2_eq 4 2 (by norm_num) (by norm_num) (by norm_num)
  constructor
  · show ((0 : ℤ), max 1 (ceilLog2 ((1 : ℚ) * (4 : ℚ)))) = ((0 : ℤ), (2 : ℤ))
    rw [show (1 : ℚ) * 4 = 4 by norm_num, e4]
    norm_num
  · unfold specResolutionLmax
    rw [show (4 : ℚ) / 1 = 4 by norm_num, e4]
    norm_num

/-- Claim C2: at the failing input `hierC2` — root chunk at offset 50, child
chunk at offset 100 — `load_octree_for_query` emits the nodes in plain
depth-first order without any sort, so the point iterator, which pops nodes
from the end of the list, seeks offset 100 first and then offset 50: the
sequence of absolute source offsets is decreasing, not non-decreasing. -/
theorem loadOctree_seekOffsets_decreasing :
    loadOctreeForQuery infoC2 hierC2 LodSelection.all BoundsSelection.all 100 =
      [⟨⟨0, 0, 0, 0⟩, 50, 10, 1⟩, ⟨⟨1, 0, 0, 0⟩, 100, 10, 1⟩] ∧
    seekOffsets (loadOctreeForQuery infoC2 hierC2 LodSelection.all BoundsSelection.all 100) =
      [100, 50] ∧
    ¬ List.Chain' (fun a b : ℕ => a ≤ b)
      (seekOffsets (loadOctreeForQuery infoC2 hierC2 LodSelection.all BoundsSelection.all 100)) := by
  have h2 : seekOffsets
      (loadOctreeForQuery infoC2 hierC2 LodSelection.all BoundsSelection.all 100) = [100, 50] := by
    decide
  refine ⟨by decide, h2, ?_⟩
  rw [h2]
  simp

theorem errCombine_nil (fmt : LasFormat) (rootB : LasBounds) (e0 : Option PointAddError) :
    errCombine fmt rootB e0 [] = e0 := by
  cases e0 <;> simp [errCombine]

theorem errCombine_cons_ok (fmt : LasFormat) (rootB : LasBounds) (e0 : Option PointAddError)
    (p : LasPoint) (ps : List LasPoint) (hm : pointMatches p fmt = true)
    (hb : boundsContainsPoint rootB p = true) :
    errCombine fmt rootB e0 (p :: ps) = errCombine fmt rootB e0 ps := by
  cases e0 <;> simp [errCombine, hm, hb]

theorem errCombine_cons_mismatch (fmt : LasFormat) (rootB : LasBounds)
    (e0 : Option PointAddError) (p : LasPoint) (ps : List LasPoint)
    (hm : pointMatches p fmt = false) :
    errCombine fmt rootB e0 (p :: ps) =
      errCombine fmt rootB (some .pointAttributesDoNotMatch) ps := by
  simp [errCombine, hm, ite_self]

theorem errCombine_cons_oob (fmt : LasFormat) (rootB : LasBounds)
    (e0 : Option PointAddError) (p : LasPoint) (ps : List LasPoint)
    (hm : pointMatches p fmt = true) (hb : boundsContainsPoint rootB p = false) :
    errCombine fmt rootB e0 (p :: ps) =
      errCombine fmt rootB
        (match e0 with
         | none => some PointAddError.pointNotInBounds
         | some e => some e) ps := by
  cases e0 <;> simp [errCombine, hm, hb]

theorem writeLoop_eq (fmt : LasFormat) (rootB : LasBounds) (hg : fmt.hasGpsTime = true)
    (ps : List LasPoint) :
    ∀ st : WriteState,
      writeLoop fmt rootB st ps = some
        { placed := st.placed ++
            ps.filter fun p => pointMatches p fmt && boundsContainsPoint rootB p
          gps := ((ps.filter fun p =>
              pointMatches p fmt && boundsContainsPoint rootB p).filterMap
            fun p => p.gpsTime).foldl gpsUpdate st.gps
          invalidPoints := errCombine fmt rootB st.invalidPoints ps } := by
  induction ps with
  | nil =>
    intro st
    simp [writeLoop, errCombine_nil]
  | cons p ps ih =>
    intro st
    by_cases hm : pointMatches p fmt = true
    · by_cases hb : boundsContainsPoint rootB p = true
      · -- the point passes both validations and is handed to placement
        have hm1 := hm
        simp only [pointMatches, Bool.and_eq_true, beq_iff_eq] at hm1
        have hsome : p.gpsTime.isSome = true := by rw [hm1.1.1.1.1, hg]
        obtain ⟨t, ht⟩ := Option.isSome_iff_exists.mp hsome
        have hstep : writeStep fmt rootB st p =
            some { st with placed := st.placed ++ [p], gps := gpsUpdate st.gps t } := by
          simp [writeStep, hm, hb, ht]
        have hfil : (p :: ps).filter
            (fun q => pointMatches q fmt && boundsContainsPoint rootB q) =
            p :: ps.filter (fun q => pointMatches q fmt && boundsContainsPoint rootB q) := by
          simp [List.filter_cons, hm, hb]
        simp only [writeLoop, hstep]
        rw [ih]
        rw [hfil, errCombine_cons_ok fmt rootB st.invalidPoints p ps hm hb]
        simp [ht, List.append_assoc]
      · -- in format but out of bounds: recorded only if no earlier error
        rw [Bool.not_eq_true] at hb
        have hstep : writeStep fmt rootB st p =
            some { st with invalidPoints :=
              match st.invalidPoints with
              | none => some PointAddError.pointNotInBounds
              | some e => some e } := by
          simp [writeStep, hm, hb]
        have hfil : (p :: ps).filter
            (fun q => pointMatches q fmt && boundsContainsPoint rootB q) =
            ps.filter (fun q => pointMatches q fmt && boundsContainsPoint rootB q) := by
          simp [List.filter_cons, hm, hb]
        simp only [writeLoop, hstep]
        rw [ih]
        rw [hfil, errCombine_cons_oob fmt rootB st.invalidPoints p ps hm hb]
    · -- attribute mismatch: always recorded, point skipped
      rw [Bool.not_eq_true] at hm
      have hstep : writeStep fmt rootB st p =
          some { st with invalidPoints := some PointAddError.pointAttributesDoNotMatch } := by
        simp [writeStep, hm]
      have hfil : (p :: ps).filter
          (fun q => pointMatches q fmt && boundsContainsPoint rootB q) =
          ps.filter (fun q => pointMatches q fmt && boundsContainsPoint rootB q) := by
        simp [List.filter_cons, hm]
      simp only [writeLoop, hstep]
      rw [ih]
      rw [hfil, errCombine_cons_mismatch fmt rootB st.invalidPoints p ps hm]

theorem errCombine_none_eq_spec (fmt : LasFormat) (rootB : LasBounds) (ps : List LasPoint) :
    errCombine fmt rootB none ps = specAggregatedError fmt rootB ps := by
  simp [errCombine, specAggregatedError]

/-- Claim C6: during `CopcWriter::write`, a point failing format or bounds
validation is skipped without aborting the stream — the points handed to
placement are exactly the stream's valid points, in order — and the loop's
final error is a single `InvalidPoint` kind in which an attribute mismatch
anywhere in the stream takes precedence over an out-of-bounds point, even if
the out-of-bounds point came first. Stated for every writer format carrying a
GPS time, which all formats accepted by `CopcWriter::new` do. -/
theorem writeGreedy_skips_and_aggregates (fmt : LasFormat) (rootB : LasBounds)
    (ps : List LasPoint) (hg : fmt.hasGpsTime = true) :
    (writeGreedy fmt rootB ps).map (fun st => st.placed) =
      some (ps.filter fun p => pointMatches p fmt && boundsContainsPoint rootB p) ∧
    (writeGreedy fmt rootB ps).map (fun st => st.invalidPoints) =
      some (specAggregatedError fmt rootB ps) := by
  unfold writeGreedy
  rw [writeLoop_eq fmt rootB hg ps ⟨[], gpsInit, none⟩]
  constructor
  · simp
  · simp [errCombine_none_eq_spec]

/-- Witness for claim C6: an out-of-bounds point followed by an attribute
mismatch; only the valid point is placed and the mismatch wins. -/
theorem writeGreedy_skips_and_aggregates_witness :
    (writeGreedy fmt6Ex rootBEx [pFarEx, p5Ex, pNoGpsEx]).map (fun st => st.placed) =
      some ([pFarEx, p5Ex, pNoGpsEx].filter fun p =>
        pointMatches p fmt6Ex && boundsContainsPoint rootBEx p) ∧
    (writeGreedy fmt6Ex rootBEx [pFarEx, p5Ex, pNoGpsEx]).map (fun st => st.invalidPoints) =
      some (specAggregatedError fmt6Ex rootBEx [pFarEx, p5Ex, pNoGpsEx]) :=
  writeGreedy_skips_and_aggregates fmt6Ex rootBEx [pFarEx, p5Ex, pNoGpsEx] rfl

/-- Claim C3: at the failing input — a single accepted point with GPS time 5
written through the greedy path — the `else if` in the GPS update
(src/writer.rs lines 618-622) skips the maximum update whenever the minimum
update fires, so `gpstime_maximum` keeps its initial `f64::MIN`, which is
smaller than the maximum input GPS time 5; `close` never touches the GPS
fields, so this is the value recorded in the COPC info VLR. -/
theorem gpstimeMaximum_not_updated :
    (writeGreedy fmt6Ex rootBEx [p5Ex]).map (fun st => st.gps) = some ⟨5, f64Min⟩ ∧
    f64Min < 5 := by
  have hmax : (5 : ℚ) < f64Max := by unfold f64Max; norm_num
  have hgps : gpsUpdate gpsInit 5 = ⟨5, f64Min⟩ := by
    unfold gpsUpdate gpsInit
    rw [if_pos hmax]
  have hfil : [p5Ex].filter
      (fun q => pointMatches q fmt6Ex && boundsContainsPoint rootBEx q) = [p5Ex] := by decide
  constructor
  · unfold writeGreedy
    rw [writeLoop_eq fmt6Ex rootBEx rfl [p5Ex] ⟨[], gpsInit, none⟩]
    simp only [Option.map_some', hfil]
    rw [show [p5Ex].filterMap (fun p => p.gpsTime) = [5] from by decide]
    simp [hgps]
  · unfold f64Min f64Max
    norm_num

/-- Claim C9, counterexample: a concrete point with `gps_time = None` never
"passes the writer's format validation" — `Point::matches` is false for it
against the writer's (GPS-time carrying) format — so it is recorded as an
attribute mismatch and skipped, and the write completes without reaching the
`unwrap`: no panic. -/
theorem pointWithoutGps_fails_validation :
    pointMatches pNoGpsEx fmt6Ex = false ∧
    writeGreedy fmt6Ex rootBEx [pNoGpsEx] =
      some ⟨[], gpsInit, some PointAddError.pointAttributesDoNotMatch⟩ :=
  ⟨rfl, rfl⟩

set_option maxRecDepth 8000 in
/-- Claim C9 (amended): point placement unwraps the GPS time and would panic
on a missing one, but a point without a GPS time never passes the format
validation of the write loop when the writer's format carries a GPS time —
and every format accepted by `CopcWriter::new` (PDRF 6, 7 or 8 after the
upgrade) does — so the unwrap is never reached on `None` and `write` is total
on such inputs. -/
theorem writeGreedy_never_panics :
    (∀ (fmt : LasFormat) (rootB : LasBounds) (ps : List LasPoint),
      fmt.hasGpsTime = true → writeGreedy fmt rootB ps ≠ none) ∧
    (∀ f : ℕ, f < 256 → upgradePdrf f ≠ none →
      pdrfHasGpsTime (((upgradePdrf f).getD (0, 0)).1 &&& 63) = true) := by
  constructor
  · intro fmt rootB ps hg
    unfold writeGreedy
    rw [writeLoop_eq fmt rootB hg ps ⟨[], gpsInit, none⟩]
    simp
  · decide

/-- Witness for claim C9: the no-panic theorem applied to a stream holding a
point with no GPS time, and to the upgraded PDRF 1. -/
theorem writeGreedy_never_panics_witness :
    writeGreedy fmt6Ex rootBEx [pNoGpsEx] ≠ none ∧
    pdrfHasGpsTime (((upgradePdrf 1).getD (0, 0)).1 &&& 63) = true :=
  ⟨writeGreedy_never_panics.1 fmt6Ex rootBEx [pNoGpsEx] rfl,
    writeGreedy_never_panics.2 1 (by decide) (by decide)⟩

set_option maxRecDepth 8000 in
/-- Claim C5: for every raw header PDRF byte, after masking the two
compression bits the format is mapped 1 to 6 and 3 to 7 with the record
length increased by 2, formats 6, 7 and 8 are kept with unchanged length,
every other format (0, 2, 4, 5, and 9 or greater) is rejected, and the two
high compression bits of the stored PDRF byte are set. -/
theorem upgradePdrf_mapping :
    ∀ f : ℕ, f < 256 →
      (upgradePdrf f = none ↔
        (f &&& 63 = 0 ∨ f &&& 63 = 2 ∨ f &&& 63 = 4 ∨ f &&& 63 = 5 ∨ 9 ≤ f &&& 63)) ∧
      (upgradePdrf f ≠ none →
        ((upgradePdrf f).getD (0, 0)).1 &&& 192 = 192 ∧
        (f &&& 63 = 1 →
          ((upgradePdrf f).getD (0, 0)).1 &&& 63 = 6 ∧ ((upgradePdrf f).getD (0, 0)).2 = 2) ∧
        (f &&& 63 = 3 →
          ((upgradePdrf f).getD (0, 0)).1 &&& 63 = 7 ∧ ((upgradePdrf f).getD (0, 0)).2 = 2) ∧
        ((f &&& 63 = 6 ∨ f &&& 63 = 7 ∨ f &&& 63 = 8) →
          ((upgradePdrf f).getD (0, 0)).1 &&& 63 = f &&& 63 ∧
            ((upgradePdrf f).getD (0, 0)).2 = 0)) := by
  have hA : ∀ f : ℕ, f < 256 →
      (upgradePdrf f = none ↔
        (f &&& 63 = 0 ∨ f &&& 63 = 2 ∨ f &&& 63 = 4 ∨ f &&& 63 = 5 ∨ 9 ≤ f &&& 63)) := by
    decide
  have hB1 : ∀ f : ℕ, f < 256 → upgradePdrf f ≠ none →
      ((upgradePdrf f).getD (0, 0)).1 &&& 192 = 192 := by
    decide
  have hB2 : ∀ f : ℕ, f < 256 → f &&& 63 = 1 →
      ((upgradePdrf f).getD (0, 0)).1 &&& 63 = 6 ∧ ((upgradePdrf f).getD (0, 0)).2 = 2 := by
    decide
  have hB3 : ∀ f : ℕ, f < 256 → f &&& 63 = 3 →
      ((upgradePdrf f).getD (0, 0)).1 &&& 63 = 7 ∧ ((upgradePdrf f).getD (0, 0)).2 = 2 := by
    decide
  have hB4 : ∀ f : ℕ, f < 256 → (f &&& 63 = 6 ∨ f &&& 63 = 7 ∨ f &&& 63 = 8) →
      ((upgradePdrf f).getD (0, 0)).1 &&& 63 = f &&& 63 ∧
        ((upgradePdrf f).getD (0, 0)).2 = 0 := by
    decide
  intro f hf
  exact ⟨hA f hf, fun hn =>
    ⟨hB1 f hf hn, fun h1 => hB2 f hf h1, fun h3 => hB3 f hf h3, fun h678 => hB4 f hf h678⟩⟩

/-- Witness for claim C5: PDRF byte 1 is upgraded to 6 with the record length
increased by 2. -/
theorem upgradePdrf_mapping_witness :
    ((upgradePdrf 1).getD (0, 0)).1 &&& 63 = 6 ∧ ((upgradePdrf 1).getD (0, 0)).2 = 2 :=
  ((upgradePdrf_mapping 1 (by decide)).2 (by decide)).2.1 (by decide)

/-- Claim C10: a `CopcWriter` that was never successfully closed runs `close`
from `Drop` and panics (`expect`) when `close` errs; closing with fewer than
one point errs with `EmptyCopcFile`, and `close` can only succeed with at
least one point — so dropping a writer to which no point was ever added
always panics. -/
theorem dropWriter_empty_always_panics :
    (∀ s : WriterLifecycle, s.isClosed = false → s.numPoints = 0 →
      closeWriter s = .error .emptyCopcFile ∧ dropWriter s = none) ∧
    (∀ (s : WriterLifecycle) (e : CloseError), s.isClosed = false →
      closeWriter s = .error e → dropWriter s = none) ∧
    (∀ s s1 : WriterLifecycle, closeWriter s = .ok s1 → 1 ≤ s.numPoints) := by
  refine ⟨?_, ?_, ?_⟩
  · intro s h0 h1
    constructor
    · simp [closeWriter, h0, h1]
    · simp [dropWriter, closeWriter, h0, h1]
  · intro s e h0 he
    simp [dropWriter, h0, he]
  · intro s s1 h
    by_cases hc : s.isClosed
    · simp [closeWriter, hc] at h
    · by_cases hn : s.numPoints < 1
      · simp [closeWriter, hc, hn] at h
      · omega

/-- Witness for claim C10: the freshly created writer state — not closed,
zero points — errs with `EmptyCopcFile` on close and panics on drop. -/
theorem dropWriter_empty_always_panics_witness :
    closeWriter ⟨false, 0⟩ = .error .emptyCopcFile ∧ dropWriter ⟨false, 0⟩ = none :=
  dropWriter_empty_always_panics.1 ⟨false, 0⟩ rfl rfl

theorem foldl_classifyVlr_copcInfo (vlrs : List VlrRec) :
    ∀ st : VlrScan, (vlrs.foldl classifyVlr st).copcInfo =
      (st.copcInfo || vlrs.any isCopcInfoVlr) := by
  induction vlrs with
  | nil => intro st; simp
  | cons v vs ih =>
    intro st
    rw [List.foldl_cons, ih, List.any_cons]
    unfold classifyVlr
    split_ifs with h1 h2 h3 <;>
      simp_all [Bool.or_comm, Bool.or_assoc, Bool.or_left_comm]

theorem classifyVlr_ept_step (st : VlrScan) (v : VlrRec) :
    (classifyVlr st v).eptHierarchy = (st.eptHierarchy || isEptHierarchyVlr v) := by
  unfold classifyVlr
  by_cases h1 : isCopcInfoVlr v = true
  · have hne : isEptHierarchyVlr v = false := by
      simp only [isCopcInfoVlr, Bool.and_eq_true, beq_iff_eq] at h1
      simp [isEptHierarchyVlr, h1.1, h1.2]
    simp [h1, hne]
  · by_cases h2 : isEptHierarchyVlr v = true
    · simp [h1, h2]
    · by_cases h3 : isLasZipVlr v = true <;>
        simp_all [Bool.not_eq_true]

theorem classifyVlr_laszip_step (st : VlrScan) (v : VlrRec) :
    (classifyVlr st v).laszipVlr = (st.laszipVlr || isLasZipVlr v) := by
  unfold classifyVlr
  by_cases h1 : isCopcInfoVlr v = true
  · have hne : isLasZipVlr v = false := by
      simp only [isCopcInfoVlr, Bool.and_eq_true, beq_iff_eq] at h1
      simp [isLasZipVlr, h1.1]
    simp [h1, hne]
  · by_cases h2 : isEptHierarchyVlr v = true
    · have hne : isLasZipVlr v = false := by
        simp only [isEptHierarchyVlr, Bool.and_eq_true, beq_iff_eq] at h2
        simp [isLasZipVlr, h2.1]
      simp [h1, h2, hne]
    · by_cases h3 : isLasZipVlr v = true <;>
        simp_all [Bool.not_eq_true]

theorem foldl_classifyVlr_ept (vlrs : List VlrRec) :
    ∀ st : VlrScan, (vlrs.foldl classifyVlr st).eptHierarchy =
      (st.eptHierarchy || vlrs.any isEptHierarchyVlr) := by
  induction vlrs with
  | nil => intro st; simp
  | cons v vs ih =>
    intro st
    rw [List.foldl_cons, ih, classifyVlr_ept_step, List.any_cons, Bool.or_assoc]

theorem foldl_classifyVlr_laszip (vlrs : List VlrRec) :
    ∀ st : VlrScan, (vlrs.foldl classifyVlr st).laszipVlr =
      (st.laszipVlr || vlrs.any isLasZipVlr) := by
  induction vlrs with
  | nil => intro st; simp
  | cons v vs ih =>
    intro st
    rw [List.foldl_cons, ih, classifyVlr_laszip_step, List.any_cons, Bool.or_assoc]

/-- Claim C4 (amended): `CopcReader::new` fails with `CopcInfoVlrNotFound`
exactly when no `("copc", 1)` VLR is present anywhere among the VLRs and
EVLRs; the position of the COPC info VLR is never examined, and the scan
succeeds precisely when the COPC info, EPT hierarchy and laszip VLRs are all
present, wherever they sit. -/
theorem readerNew_copcInfo_check (vlrs : List VlrRec) :
    (readerNewVlrCheck vlrs = .error .copcInfoVlrNotFound ↔
      ∀ v ∈ vlrs, isCopcInfoVlr v = false) ∧
    (readerNewVlrCheck vlrs = .ok () ↔
      ((∃ v ∈ vlrs, isCopcInfoVlr v = true) ∧ (∃ v ∈ vlrs, isEptHierarchyVlr v = true) ∧
        ∃ v ∈ vlrs, isLasZipVlr v = true)) := by
  unfold readerNewVlrCheck
  simp only [foldl_classifyVlr_copcInfo, foldl_classifyVlr_ept, foldl_classifyVlr_laszip,
    Bool.false_or]
  cases hc : vlrs.any isCopcInfoVlr <;> cases he : vlrs.any isEptHierarchyVlr <;>
    cases hl : vlrs.any isLasZipVlr <;>
      simp_all [List.any_eq_true, List.any_eq_false]

/-- Witness for claim C4: the amended theorem applied at a VLR list missing
the COPC info VLR. -/
theorem readerNew_copcInfo_check_witness :
    readerNewVlrCheck [⟨"laszip encoded", 22204⟩] = .error .copcInfoVlrNotFound :=
  (readerNew_copcInfo_check [⟨"laszip encoded", 22204⟩]).1.mpr (by decide)

/-- Claim C4, counterexample: an input whose COPC info VLR is the second VLR
(the first being an ordinary projection VLR) is accepted by the scan, so
`CopcReader::new` does not require the `("copc", 1)` VLR to be at index 0. -/
theorem readerNew_accepts_copcInfo_not_first :
    readerNewVlrCheck [⟨"lasf_projection", 2112⟩, ⟨"copc", 1⟩, ⟨"copc", 1000⟩,
      ⟨"laszip encoded", 22204⟩] = .ok () ∧
    isCopcInfoVlr ⟨"lasf_projection", 2112⟩ = false :=
  ⟨rfl, rfl⟩
